import Mathlib

/-!
Shallow embedding of the Secret Santa assignment engine
(`src/services/secretSanta.ts`) and its persistent-store context.

Randomness: `Math.random()` draws are modelled as a stream `rnd : Nat → Nat`
together with a cursor `k`; a draw of `Math.floor(Math.random() * m)` at
cursor `k` is `rnd k % m`, and the cursor advances by one.  Every value in
`0 .. m-1` is realisable, and theorems quantify over all streams.
-/

namespace SecretSanta

/-- JS destructuring swap `[a[i], a[j]] = [a[j], a[i]]` on a list; out-of-range
indices leave the list unchanged (never exercised by the shuffle loop). -/
def listSwap {α : Type} (l : List α) (i j : Nat) : List α :=
  match l[i]?, l[j]? with
  | some a, some b => (l.set i b).set j a
  | _, _ => l

/-- Loop body of `shuffleArray`: the Fisher-Yates index `i` walks from
`length - 1` down to `1`, swapping position `i` with `j = rnd k % (i+1)`. -/
def shuffleAux {α : Type} (rnd : Nat → Nat) : Nat → List α → Nat → List α × Nat
  | 0, l, k => (l, k)
  | m + 1, l, k => shuffleAux rnd m (listSwap l (m + 1) (rnd k % (m + 2))) (k + 1)

/-- `shuffleArray` from `src/services/secretSanta.ts` lines 10-17: copy the
array and run the backward Fisher-Yates swap loop. -/
def shuffleArray {α : Type} (rnd : Nat → Nat) (l : List α) (k : Nat) : List α × Nat :=
  shuffleAux rnd (l.length - 1) l k

/-- `isDerangement` from lines 23-30: scan indices `0 .. original.length - 1`
and fail on the first position where the two arrays agree. -/
def isDerangement (original shuffled : List String) : Bool :=
  (List.range original.length).all fun i => original[i]? != shuffled[i]?

/-- JS `Array.prototype.indexOf`: first index of the element, `-1` if absent. -/
def jsIndexOf {α : Type} [DecidableEq α] (l : List α) (x : α) : Int :=
  if x ∈ l then (List.indexOf x l : Int) else -1

/-- Fallback of `generateDerangement` (lines 63-65): `pop` the last element and
`unshift` it to the front (cyclic rotation by one). -/
def rotateLastToFront {α : Type} (l : List α) : List α :=
  match l.getLast? with
  | none => l
  | some last => last :: l.dropLast

/-- The `while (attempts < maxAttempts)` loop of `generateDerangement`
(lines 50-59), with the remaining attempt budget as fuel.  Note line 52 of the
source computes `shuffledIndices` by mapping over `array` and looking each item
up in `array` itself — the drawn `shuffled` array is not consulted. -/
def derangeLoop {α : Type} [DecidableEq α] (rnd : Nat → Nat) (arr : List α) :
    Nat → Nat → Option (List α) × Nat
  | 0, k => (none, k)
  | n + 1, k =>
    let sk := shuffleArray rnd arr k
    let originalIndices := (List.range arr.length).map fun i => toString i
    let shuffledIndices := arr.map fun item => toString (jsIndexOf arr item)
    if isDerangement originalIndices shuffledIndices then (some sk.1, sk.2)
    else derangeLoop rnd arr n sk.2

/-- `generateDerangement` from lines 37-67.  Errors on fewer than 2 elements,
returns the swap for exactly 2, otherwise runs the bounded rejection loop and
falls back to the rotation.  Returns the result together with the advanced
random cursor. -/
def generateDerangement {α : Type} [DecidableEq α] [Inhabited α] (rnd : Nat → Nat)
    (arr : List α) (maxAttempts : Nat) (k : Nat) : Except String (List α × Nat) :=
  if arr.length < 2 then Except.error "Need at least 2 participants for Secret Santa"
  else if arr.length = 2 then Except.ok ([arr.getD 1 default, arr.getD 0 default], k)
  else
    match derangeLoop rnd arr maxAttempts k with
    | (some shuffled, kAfter) => Except.ok (shuffled, kAfter)
    | (none, kAfter) => Except.ok (rotateLastToFront arr, kAfter)

/-! ## Persistent store model

MongoDB documents are modelled as records carrying a numeric identifier
(`_id`); `insertMany` assigns fresh identifiers from the store's counter, as
the database assigns fresh ObjectIds.  The mongoose session/transaction is
modelled by running the body on the store purely: `commitTransaction` makes
the body's final store the new state, `abortTransaction` discards it and keeps
the pre-call store. -/

/-- Wishlist subdocument of a user (`models/User.ts`). -/
structure Wishlist where
  wishText : String
  link : String
deriving DecidableEq, Repr, Inhabited

/-- User document (`models/User.ts`): the fields the assignment engine reads. -/
structure UserDoc where
  id : Nat
  name : String
  email : String
  wishlist : Wishlist
  eventId : Option Nat
deriving DecidableEq, Repr, Inhabited

/-- Event document (`models/Event.ts`): the fields the assignment engine touches. -/
structure EventDoc where
  id : Nat
  name : String
  status : String
deriving DecidableEq, Repr, Inhabited

/-- Assignment document (`models/Assignment.ts`), with its database identifier. -/
structure AssignmentDoc where
  id : Nat
  eventId : Nat
  santaUserId : Nat
  receiverUserId : Nat
  receiverNumber : Nat
deriving DecidableEq, Repr, Inhabited

/-- An assignment row as built by `assignSecretSanta` before insertion
(no identifier yet; `insertMany` assigns one). -/
structure AssignmentRow where
  eventId : Nat
  santaUserId : Nat
  receiverUserId : Nat
  receiverNumber : Nat
deriving DecidableEq, Repr, Inhabited

/-- The persistent store: the three collections plus the fresh-identifier
counter used by inserts. -/
structure Store where
  events : List EventDoc
  users : List UserDoc
  assignments : List AssignmentDoc
  nextId : Nat
deriving DecidableEq, Repr, Inhabited

/-- `Event.findById(eventId)`. -/
def findEventById (st : Store) (eid : Nat) : Option EventDoc :=
  st.events.find? fun e => e.id == eid

/-- `User.find({ eventId })`: the participants linked to the event. -/
def participantsOf (st : Store) (eid : Nat) : List UserDoc :=
  st.users.filter fun u => u.eventId == some eid

/-- `Assignment.find({ eventId })`: the assignment rows of the event. -/
def assignmentsFor (st : Store) (eid : Nat) : List AssignmentDoc :=
  st.assignments.filter fun a => a.eventId == eid

/-- `Assignment.deleteMany({ eventId })`. -/
def deleteAssignmentsFor (st : Store) (eid : Nat) : Store :=
  { st with assignments := st.assignments.filter fun a => a.eventId != eid }

/-- `Assignment.insertMany(rows)`: append the rows, giving each a fresh
identifier from the counter. -/
def insertAssignments (st : Store) (rows : List AssignmentRow) : Store :=
  { st with
    assignments := st.assignments ++ rows.enum.map fun p =>
      { id := st.nextId + p.1, eventId := p.2.eventId, santaUserId := p.2.santaUserId,
        receiverUserId := p.2.receiverUserId, receiverNumber := p.2.receiverNumber },
    nextId := st.nextId + rows.length }

/-- `event.save()`: write back the (mutated) event document. -/
def saveEvent (st : Store) (ev : EventDoc) : Store :=
  { st with events := st.events.map fun e0 => if e0.id == ev.id then ev else e0 }

/-- Transaction body of `assignSecretSanta` (lines 82-121), run against the
session.  `insertFails` injects a store fault at the `insertMany` step (the
simulated fault of the spec's atomicity property). -/
def assignSecretSantaTx (rnd : Nat → Nat) (st : Store) (eid : Nat) (k : Nat)
    (insertFails : Bool) : Except String Store :=
  match findEventById st eid with
  | none => Except.error "Event not found"
  | some event =>
    let participants := participantsOf st eid
    if participants.length < 2 then
      Except.error "Need at least 2 participants for Secret Santa"
    else
      let st1 := deleteAssignmentsFor st eid
      let santas := participants
      match generateDerangement rnd participants 1000 k with
      | Except.error e => Except.error e
      | Except.ok (receivers, k1) =>
        let numbers := (List.range participants.length).map fun i => i + 1
        let shuffledNumbers := (shuffleArray rnd numbers k1).1
        let rows : List AssignmentRow := santas.enum.map fun p =>
          { eventId := eid, santaUserId := p.2.id,
            receiverUserId := (receivers.getD p.1 default).id,
            receiverNumber := shuffledNumbers.getD p.1 0 }
        if insertFails then Except.error "insert failed"
        else
          let st2 := insertAssignments st1 rows
          let st3 := saveEvent st2 { event with status := "assigned" }
          Except.ok st3

/-- `assignSecretSanta` (lines 76-131): run the transaction body; on success
commit its store, on any error abort — the session's changes are discarded and
the pre-call store stays, with the error surfaced to the caller. -/
def assignSecretSanta (rnd : Nat → Nat) (st : Store) (eid : Nat) (k : Nat)
    (insertFails : Bool) : Store × Option String :=
  match assignSecretSantaTx rnd st eid k insertFails with
  | Except.ok st2 => (st2, none)
  | Except.error e => (st, some e)

/-- Result shape of `getUserAssignment`: only the masked number and the
populated receiver wishlist; no name, email or identifier field exists. -/
structure UserAssignmentView where
  receiverNumber : Nat
  receiverWishlist : Option Wishlist
deriving DecidableEq, Repr

/-- `getUserAssignment` (lines 137-154): look up the caller's outgoing
assignment and return the receiver number plus the receiver's populated
wishlist (`populate('receiverUserId', 'wishlist')` is modelled as a lookup of
the referenced user, keeping only the wishlist; a dangling reference yields
`none` in that field). -/
def getUserAssignment (st : Store) (eid uid : Nat) : Option UserAssignmentView :=
  match st.assignments.find? fun a => a.eventId == eid && a.santaUserId == uid with
  | none => none
  | some a =>
    some { receiverNumber := a.receiverNumber,
           receiverWishlist :=
             (st.users.find? fun u => u.id == a.receiverUserId).map fun u => u.wishlist }

/-- Rewrite every user's name and email by arbitrary functions, leaving
identifier, wishlist and event membership untouched.  Two stores that differ
only in names and emails are exactly `st` and `redactUsers st f g` for some
`f`, `g`. -/
def redactUsers (st : Store) (f g : UserDoc → String) : Store :=
  { st with users := st.users.map fun u => { u with name := f u, email := g u } }

/-- Value `generateDerangement` actually returns for any input of length at
least 2: the swap for exactly two elements, the fallback rotation otherwise
(the rejection loop of lines 50-59 never accepts, see
`derangeLoop_first_none`). -/
def derangeResult {α : Type} [Inhabited α] (l : List α) : List α :=
  if l.length = 2 then [l.getD 1 default, l.getD 0 default] else rotateLastToFront l

/-! ## Permutation lemmas for the shuffle -/

theorem swapHead_perm {α : Type} (xs : List α) (j : Nat) (x : α) (hj : j < xs.length) :
    (xs.get ⟨j, hj⟩ :: xs.set j x).Perm (x :: xs) := by
  induction xs generalizing j with
  | nil => simp at hj
  | cons y ys ih =>
    cases j with
    | zero => simpa using List.Perm.swap x y ys
    | succ j =>
      have hj2 : j < ys.length := by simpa using hj
      have h1 : (ys.get ⟨j, hj2⟩ :: y :: ys.set j x).Perm (y :: ys.get ⟨j, hj2⟩ :: ys.set j x) :=
        List.Perm.swap y (ys.get ⟨j, hj2⟩) (ys.set j x)
      have h2 : (y :: ys.get ⟨j, hj2⟩ :: ys.set j x).Perm (y :: x :: ys) :=
        (ih j hj2).cons y
      have h3 : (y :: x :: ys).Perm (x :: y :: ys) := List.Perm.swap x y ys
      simpa using (h1.trans h2).trans h3

theorem listSwap_cons_succ {α : Type} (x : α) (xs : List α) (i j : Nat) :
    listSwap (x :: xs) (i + 1) (j + 1) = x :: listSwap xs i j := by
  unfold listSwap
  cases hi : xs[i]? with
  | none => simp [hi]
  | some a =>
    cases hj : xs[j]? with
    | none => simp [hi, hj]
    | some b => simp [hi, hj]

theorem listSwap_perm {α : Type} (l : List α) (i j : Nat) : (listSwap l i j).Perm l := by
  induction l generalizing i j with
  | nil => simp [listSwap]
  | cons x xs ih =>
    cases i with
    | zero =>
      cases j with
      | zero =>
        unfold listSwap
        simp
      | succ j =>
        unfold listSwap
        cases hj : xs[j]? with
        | none => simp [hj]
        | some b =>
          have hjl : j < xs.length := by
            by_contra hle
            rw [List.getElem?_eq_none (by omega)] at hj
            exact Option.noConfusion hj
          have hb : xs.get ⟨j, hjl⟩ = b := by
            have := List.getElem?_eq_getElem hjl
            rw [this] at hj
            simpa using hj
          have := swapHead_perm xs j x hjl
          rw [hb] at this
          simpa [hj] using this.cons x |>.trans (List.Perm.swap x x xs) |>.trans (List.Perm.refl _) |>.symm.symm
    | succ i =>
      cases j with
      | zero =>
        unfold listSwap
        cases hi : xs[i]? with
        | none => simp [hi]
        | some a =>
          have hil : i < xs.length := by
            by_contra hle
            rw [List.getElem?_eq_none (by omega)] at hi
            exact Option.noConfusion hi
          have ha : xs.get ⟨i, hil⟩ = a := by
            have := List.getElem?_eq_getElem hil
            rw [this] at hi
            simpa using hi
          have := swapHead_perm xs i x hil
          rw [ha] at this
          simpa [hi] using this
      | succ j =>
        rw [listSwap_cons_succ]
        exact (ih i j).cons x

theorem shuffleAux_perm {α : Type} (rnd : Nat → Nat) (m : Nat) :
    ∀ (l : List α) (k : Nat), ((shuffleAux rnd m l k).1).Perm l := by
  induction m with
  | zero => intro l k; simp [shuffleAux]
  | succ m ih =>
    intro l k
    have h1 := ih (listSwap l (m + 1) (rnd k % (m + 2))) (k + 1)
    have h2 := listSwap_perm l (m + 1) (rnd k % (m + 2))
    simpa [shuffleAux] using h1.trans h2

theorem shuffleArray_perm {α : Type} (rnd : Nat → Nat) (l : List α) (k : Nat) :
    ((shuffleArray rnd l k).1).Perm l :=
  shuffleAux_perm rnd (l.length - 1) l k

theorem shuffleArray_length {α : Type} (rnd : Nat → Nat) (l : List α) (k : Nat) :
    ((shuffleArray rnd l k).1).length = l.length :=
  (shuffleArray_perm rnd l k).length_eq

/-! ## The rejection loop never accepts

Line 52 computes `shuffledIndices` from the original `array`, so index `0`
always compares equal to itself and `isDerangement` returns `false` on every
attempt, whatever the random draws were. -/

theorem jsIndexOf_head {α : Type} [DecidableEq α] (x : α) (t : List α) :
    jsIndexOf (x :: t) x = 0 := by
  simp [jsIndexOf, List.indexOf_cons_self]

theorem loop_test_false {α : Type} [DecidableEq α] (x : α) (t : List α) :
    isDerangement ((List.range (x :: t).length).map fun i => toString i)
      ((x :: t).map fun item => toString (jsIndexOf (x :: t) item)) = false := by
  unfold isDerangement
  rw [List.length_map, List.length_range]
  have hmem : (0 : Nat) ∈ List.range (x :: t).length := by
    simp [List.mem_range]
  rw [List.all_eq_false]
  refine ⟨0, hmem, ?_⟩
  have h0 : (((List.range (x :: t).length).map fun i => toString i))[0]? =
      some (toString (0 : Nat)) := by
    rw [List.getElem?_map]
    simp [List.getElem?_range, List.length_pos]
  have h1 : (((x :: t).map fun item => toString (jsIndexOf (x :: t) item)))[0]? =
      some (toString (jsIndexOf (x :: t) x)) := by
    simp
  rw [h0, h1, jsIndexOf_head]
  simp [toString]

theorem shuffleAux_cursor {α : Type} (rnd : Nat → Nat) (m : Nat) :
    ∀ (l : List α) (k : Nat), (shuffleAux rnd m l k).2 = k + m := by
  induction m with
  | zero => intro l k; simp [shuffleAux]
  | succ m ih =>
    intro l k
    rw [shuffleAux, ih]
    omega

theorem shuffleArray_cursor {α : Type} (rnd : Nat → Nat) (l : List α) (k : Nat) :
    (shuffleArray rnd l k).2 = k + (l.length - 1) :=
  shuffleAux_cursor rnd (l.length - 1) l k

theorem derangeLoop_eq {α : Type} [DecidableEq α] (rnd : Nat → Nat) (x : α) (t : List α) :
    ∀ (fuel k : Nat),
      derangeLoop rnd (x :: t) fuel k = (none, k + fuel * ((x :: t).length - 1)) := by
  intro fuel
  induction fuel with
  | zero => intro k; simp [derangeLoop]
  | succ n ih =>
    intro k
    rw [derangeLoop]
    simp only [loop_test_false, if_neg]
    rw [ih, shuffleArray_cursor]
    simp [Nat.succ_mul]
    omega

/-! ## Shape of the generator's result -/

theorem generateDerangement_two {α : Type} [DecidableEq α] [Inhabited α]
    (rnd : Nat → Nat) (arr : List α) (k maxAttempts : Nat) (h2 : arr.length = 2) :
    generateDerangement rnd arr maxAttempts k =
      Except.ok ([arr.getD 1 default, arr.getD 0 default], k) := by
  unfold generateDerangement
  rw [if_neg (by omega), if_pos h2]

theorem generateDerangement_three {α : Type} [DecidableEq α] [Inhabited α]
    (rnd : Nat → Nat) (arr : List α) (k maxAttempts : Nat) (h3 : 3 ≤ arr.length) :
    generateDerangement rnd arr maxAttempts k =
      Except.ok (rotateLastToFront arr, k + maxAttempts * (arr.length - 1)) := by
  match arr, h3 with
  | x :: t, h3 =>
    unfold generateDerangement
    rw [if_neg (by omega), if_neg (by omega), derangeLoop_eq]

theorem generateDerangement_ok {α : Type} [DecidableEq α] [Inhabited α]
    (rnd : Nat → Nat) (arr : List α) (k : Nat) (h2 : 2 ≤ arr.length) :
    ∃ k1, generateDerangement rnd arr 1000 k = Except.ok (derangeResult arr, k1) := by
  rcases Nat.lt_or_ge arr.length 3 with h | h
  · have he : arr.length = 2 := by omega
    exact ⟨k, by rw [generateDerangement_two rnd arr k 1000 he, derangeResult, if_pos he]⟩
  · refine ⟨k + 1000 * (arr.length - 1), ?_⟩
    rw [generateDerangement_three rnd arr k 1000 h, derangeResult, if_neg (by omega)]

/-! ## The fallback rotation -/

theorem rotateLastToFront_perm {α : Type} (l : List α) : (rotateLastToFront l).Perm l := by
  cases l with
  | nil => simp [rotateLastToFront]
  | cons x xs =>
    have hne : x :: xs ≠ [] := List.cons_ne_nil x xs
    unfold rotateLastToFront
    rw [List.getLast?_eq_getLast (x :: xs) hne]
    have h1 : ((x :: xs).getLast hne :: (x :: xs).dropLast).Perm
        ((x :: xs).dropLast ++ [(x :: xs).getLast hne]) :=
      (List.perm_append_singleton _ _).symm
    rw [List.dropLast_append_getLast hne] at h1
    exact h1

theorem rotateLastToFront_zero {α : Type} (l : List α) (hne : l ≠ []) :
    (rotateLastToFront l)[0]? = l[l.length - 1]? := by
  unfold rotateLastToFront
  rw [List.getLast?_eq_getLast l hne]
  have hlen : l.length - 1 < l.length := by
    have := List.length_pos.mpr hne
    omega
  rw [List.getElem?_eq_getElem hlen]
  simp [List.getLast_eq_getElem l hne]

theorem rotateLastToFront_succ {α : Type} (l : List α) (i : Nat) (h : i + 1 < l.length) :
    (rotateLastToFront l)[i + 1]? = l[i]? := by
  have hne : l ≠ [] := by
    intro he
    subst he
    simp at h
  unfold rotateLastToFront
  rw [List.getLast?_eq_getLast l hne, List.getElem?_cons_succ, List.dropLast_eq_take,
    List.getElem?_take, if_pos (by omega)]

theorem nodup_getElem?_ne {α : Type} (l : List α) (hnd : l.Nodup) (i j : Nat)
    (hi : i < l.length) (hj : j < l.length) (hij : i ≠ j) : l[i]? ≠ l[j]? := by
  rw [List.getElem?_eq_getElem hi, List.getElem?_eq_getElem hj]
  intro he
  have he2 : l.get ⟨i, hi⟩ = l.get ⟨j, hj⟩ := by simpa using he
  have he3 := hnd.get_inj_iff.mp he2
  exact hij (by simpa using congrArg Fin.val he3)

theorem rotateLastToFront_no_fix {α : Type} (l : List α) (h2 : 2 ≤ l.length)
    (hnd : l.Nodup) : ∀ i, i < l.length → (rotateLastToFront l)[i]? ≠ l[i]? := by
  have hne : l ≠ [] := by
    intro he
    subst he
    simp at h2
  intro i hi
  cases i with
  | zero =>
    rw [rotateLastToFront_zero l hne]
    exact nodup_getElem?_ne l hnd (l.length - 1) 0 (by omega) (by omega) (by omega)
  | succ i =>
    rw [rotateLastToFront_succ l i hi]
    exact nodup_getElem?_ne l hnd i (i + 1) (by omega) hi (by omega)

/-! ## The value the generator returns -/

theorem derangeResult_two {α : Type} [Inhabited α] (a b : α) :
    derangeResult [a, b] = [b, a] := by
  simp [derangeResult]

theorem derangeResult_perm {α : Type} [Inhabited α] (l : List α) :
    (derangeResult l).Perm l := by
  by_cases he : l.length = 2
  · obtain ⟨a, b, rfl⟩ := List.length_eq_two.mp he
    rw [derangeResult_two]
    exact List.Perm.swap a b []
  · rw [derangeResult, if_neg he]
    exact rotateLastToFront_perm l

theorem derangeResult_length {α : Type} [Inhabited α] (l : List α) :
    (derangeResult l).length = l.length :=
  (derangeResult_perm l).length_eq

theorem derangeResult_no_fix {α : Type} [Inhabited α] (l : List α) (h2 : 2 ≤ l.length)
    (hnd : l.Nodup) : ∀ i, i < l.length → (derangeResult l)[i]? ≠ l[i]? := by
  by_cases he : l.length = 2
  · obtain ⟨a, b, rfl⟩ := List.length_eq_two.mp he
    intro i hi
    have hab : a ≠ b := by simpa using hnd
    rw [derangeResult_two]
    have hi2 : i < 2 := by simpa using hi
    interval_cases i
    · simpa using fun he0 => hab he0.symm
    · simpa using hab
  · rw [derangeResult, if_neg he]
    exact rotateLastToFront_no_fix l h2 hnd

theorem dropLast_map_comm {α β : Type} (f : α → β) (l : List α) :
    (l.map f).dropLast = l.dropLast.map f := by
  rw [List.dropLast_eq_take, List.dropLast_eq_take, List.length_map, List.map_take]

theorem rotateLastToFront_map {α β : Type} (f : α → β) (l : List α) :
    rotateLastToFront (l.map f) = (rotateLastToFront l).map f := by
  cases l with
  | nil => simp [rotateLastToFront]
  | cons x xs =>
    have hne : x :: xs ≠ [] := List.cons_ne_nil x xs
    have hne2 : (x :: xs).map f ≠ [] := by simp
    unfold rotateLastToFront
    rw [List.getLast?_eq_getLast (x :: xs) hne, List.getLast?_eq_getLast ((x :: xs).map f) hne2]
    simp only [List.map_cons]
    congr 1
    · exact List.getLast_map f (x :: xs) hne2
    · exact dropLast_map_comm f (x :: xs)

theorem derangeResult_map {α β : Type} [Inhabited α] [Inhabited β] (f : α → β) (l : List α)
    (h2 : 2 ≤ l.length) : derangeResult (l.map f) = (derangeResult l).map f := by
  by_cases he : l.length = 2
  · obtain ⟨a, b, rfl⟩ := List.length_eq_two.mp he
    simp [derangeResult_two]
  · rw [derangeResult, derangeResult, if_neg (by simpa using he), if_neg he]
    exact rotateLastToFront_map f l

/-! ## The successful run, characterised -/

theorem map_range_getD {α β : Type} (l : List α) (g : α → β) (d : α) :
    (List.range l.length).map (fun i => g (l.getD i d)) = l.map g := by
  apply List.ext_getElem
  · simp
  · intro i h1 h2
    simp only [List.getElem_map, List.getElem_range]
    rw [List.getD_eq_getElem l d (by simpa using h2)]

/-- The rows `assignSecretSanta` inserts for the event, with their database
identifiers: row `i` pairs santa `participants[i]` with receiver
`(derangeResult participants)[i]` under masked number `nums[i]`. -/
def builtRows (eid firstId : Nat) (participants receivers : List UserDoc)
    (nums : List Nat) : List AssignmentDoc :=
  participants.enum.map fun p =>
    { id := firstId + p.1, eventId := eid, santaUserId := p.2.id,
      receiverUserId := (receivers.getD p.1 default).id,
      receiverNumber := nums.getD p.1 0 }

theorem builtRows_length (eid firstId : Nat) (participants receivers : List UserDoc)
    (nums : List Nat) :
    (builtRows eid firstId participants receivers nums).length = participants.length := by
  simp [builtRows]

theorem assignTx_success_eq (rnd : Nat → Nat) (st : Store) (eid k : Nat) (ev : EventDoc)
    (recv : List UserDoc) (k1 : Nat)
    (hev : findEventById st eid = some ev)
    (h2 : 2 ≤ (participantsOf st eid).length)
    (hgen : generateDerangement rnd (participantsOf st eid) 1000 k = Except.ok (recv, k1)) :
    assignSecretSantaTx rnd st eid k false =
      Except.ok (saveEvent
        (insertAssignments (deleteAssignmentsFor st eid)
          ((participantsOf st eid).enum.map fun p =>
            ({ eventId := eid, santaUserId := p.2.id,
               receiverUserId := (recv.getD p.1 default).id,
               receiverNumber :=
                 ((shuffleArray rnd ((List.range (participantsOf st eid).length).map
                     fun i => i + 1) k1).1).getD p.1 0 } : AssignmentRow)))
        { ev with status := "assigned" }) := by
  simp only [assignSecretSantaTx, hev, hgen,
    if_neg (show ¬(participantsOf st eid).length < 2 by omega), Bool.false_eq_true,
    ite_false]

theorem insert_enum_rows_eq (st0 : Store) (eid : Nat) (participants recv : List UserDoc)
    (nums : List Nat) :
    (insertAssignments st0
      (participants.enum.map fun p =>
        ({ eventId := eid, santaUserId := p.2.id,
           receiverUserId := (recv.getD p.1 default).id,
           receiverNumber := nums.getD p.1 0 } : AssignmentRow))).assignments =
    st0.assignments ++ builtRows eid st0.nextId participants recv nums := by
  simp only [insertAssignments, builtRows]
  congr 1
  apply List.ext_getElem
  · simp
  · intro i h1 h2
    have hip : i < participants.length := by simpa using h2
    simp only [List.getElem_map, List.getElem_enum]

theorem assign_success_spec (rnd : Nat → Nat) (st : Store) (eid k : Nat) (ev : EventDoc)
    (hev : findEventById st eid = some ev)
    (h2 : 2 ≤ (participantsOf st eid).length) :
    ∃ st1 nums,
      assignSecretSanta rnd st eid k false = (st1, none) ∧
      nums.Perm ((List.range (participantsOf st eid).length).map fun i => i + 1) ∧
      st1.assignments =
        (st.assignments.filter fun a => a.eventId != eid) ++
          builtRows eid st.nextId (participantsOf st eid)
            (derangeResult (participantsOf st eid)) nums ∧
      st1.users = st.users ∧
      st1.events = st.events.map
        (fun e0 => if e0.id == ev.id then { ev with status := "assigned" } else e0) ∧
      st1.nextId = st.nextId + (participantsOf st eid).length := by
  obtain ⟨k1, hgen⟩ := generateDerangement_ok rnd (participantsOf st eid) k h2
  have htx := assignTx_success_eq rnd st eid k ev (derangeResult (participantsOf st eid))
    k1 hev h2 hgen
  refine ⟨saveEvent
      (insertAssignments (deleteAssignmentsFor st eid)
        ((participantsOf st eid).enum.map fun p =>
          ({ eventId := eid, santaUserId := p.2.id,
             receiverUserId := ((derangeResult (participantsOf st eid)).getD p.1 default).id,
             receiverNumber := ((shuffleArray rnd ((List.range (participantsOf st eid).length).map
                 fun i => i + 1) k1).1).getD p.1 0 } : AssignmentRow)))
      { ev with status := "assigned" },
    (shuffleArray rnd ((List.range (participantsOf st eid).length).map fun i => i + 1) k1).1,
    ?_, ?_, ?_, ?_, ?_, ?_⟩
  · simp only [assignSecretSanta, htx]
  · exact shuffleArray_perm rnd _ k1
  · rw [saveEvent]
    simp only []
    rw [insert_enum_rows_eq]
    rfl
  · rfl
  · rfl
  · simp [insertAssignments, deleteAssignmentsFor, saveEvent, List.enum_length]

theorem assignmentsFor_of_eq (st1 : Store) (eid : Nat) (old new : List AssignmentDoc)
    (h : st1.assignments = (old.filter fun a => a.eventId != eid) ++ new)
    (hnew : ∀ r ∈ new, r.eventId = eid) :
    assignmentsFor st1 eid = new := by
  rw [assignmentsFor, h, List.filter_append]
  have h1 : ((old.filter fun a => a.eventId != eid).filter fun a => a.eventId == eid) = [] := by
    rw [List.filter_eq_nil_iff]
    intro a ha
    have h2 := (List.mem_filter.mp ha).2
    simp only [bne_iff_ne, ne_eq, decide_eq_true_eq] at h2
    simp [h2]
  have h3 : (new.filter fun a => a.eventId == eid) = new := by
    rw [List.filter_eq_self]
    intro a ha
    simp [hnew a ha]
  rw [h1, h3, List.nil_append]

theorem builtRows_eventId (eid firstId : Nat) (participants receivers : List UserDoc)
    (nums : List Nat) :
    ∀ r ∈ builtRows eid firstId participants receivers nums, r.eventId = eid := by
  intro r hr
  obtain ⟨p, _, rfl⟩ := List.mem_map.mp hr
  rfl

theorem builtRows_getElem (eid firstId : Nat) (participants receivers : List UserDoc)
    (nums : List Nat) (i : Nat) (hi : i < participants.length)
    (hb : i < (builtRows eid firstId participants receivers nums).length) :
    (builtRows eid firstId participants receivers nums)[i] =
    { id := firstId + i, eventId := eid,
      santaUserId := (participants.get ⟨i, hi⟩).id,
      receiverUserId := (receivers.getD i default).id,
      receiverNumber := nums.getD i 0 } := by
  simp [builtRows, List.getElem_enum]

theorem builtRows_map_santa (eid firstId : Nat) (participants receivers : List UserDoc)
    (nums : List Nat) :
    (builtRows eid firstId participants receivers nums).map (fun r => r.santaUserId) =
      participants.map fun u => u.id := by
  apply List.ext_getElem
  · simp [builtRows_length]
  · intro i h1 h2
    have hi : i < participants.length := by simpa using h2
    rw [List.getElem_map, List.getElem_map, builtRows_getElem]
    · simp
    · exact hi

theorem builtRows_map_receiver (eid firstId : Nat) (participants receivers : List UserDoc)
    (nums : List Nat) (hlen : receivers.length = participants.length) :
    (builtRows eid firstId participants receivers nums).map (fun r => r.receiverUserId) =
      receivers.map fun u => u.id := by
  apply List.ext_getElem
  · simp [builtRows_length, hlen]
  · intro i h1 h2
    have hi : i < participants.length := by
      rw [List.length_map, builtRows_length] at h1
      exact h1
    rw [List.getElem_map, List.getElem_map, builtRows_getElem]
    · simp only []
      rw [List.getD_eq_getElem receivers default (by omega)]
    · exact hi

theorem builtRows_map_number (eid firstId : Nat) (participants receivers : List UserDoc)
    (nums : List Nat) (hlen : nums.length = participants.length) :
    (builtRows eid firstId participants receivers nums).map (fun r => r.receiverNumber) =
      nums := by
  apply List.ext_getElem
  · simp [builtRows_length, hlen]
  · intro i h1 h2
    have hi : i < participants.length := by
      rw [List.length_map, builtRows_length] at h1
      exact h1
    rw [List.getElem_map, builtRows_getElem]
    · simp only []
      rw [List.getD_eq_getElem nums 0 (by omega)]
    · exact hi

theorem builtRows_id_bounds (eid firstId : Nat) (participants receivers : List UserDoc)
    (nums : List Nat) :
    ∀ r ∈ builtRows eid firstId participants receivers nums,
      firstId ≤ r.id ∧ r.id < firstId + participants.length := by
  intro r hr
  obtain ⟨i, hi, he⟩ := List.mem_iff_getElem.mp hr
  have hip : i < participants.length := by
    rw [builtRows_length] at hi
    exact hi
  rw [builtRows_getElem eid firstId participants receivers nums i hip] at he
  subst he
  show firstId ≤ firstId + i ∧ firstId + i < firstId + participants.length
  omega

theorem builtRows_no_fix (eid firstId : Nat) (participants : List UserDoc)
    (nums : List Nat) (h2 : 2 ≤ participants.length)
    (hnd : (participants.map fun u => u.id).Nodup) :
    ∀ r ∈ builtRows eid firstId participants (derangeResult participants) nums,
      r.santaUserId ≠ r.receiverUserId := by
  intro r hr
  obtain ⟨i, hi, he⟩ := List.mem_iff_getElem.mp hr
  have hip : i < participants.length := by
    rw [builtRows_length] at hi
    exact hi
  rw [builtRows_getElem eid firstId participants (derangeResult participants) nums i hip] at he
  subst he
  simp only [ne_eq]
  intro hcontra
  have hmap := derangeResult_map (fun u => u.id) participants h2
  have hno := derangeResult_no_fix (participants.map fun u => u.id)
    (by simpa using h2) hnd i (by simpa using hip)
  rw [hmap] at hno
  have hiD : i < (derangeResult participants).length := by
    rw [derangeResult_length]
    exact hip
  have hL : ((derangeResult participants).map fun u => u.id)[i]? =
      some ((derangeResult participants).get ⟨i, hiD⟩).id := by
    rw [List.getElem?_eq_getElem (by simpa using hiD)]
    simp
  have hR : (participants.map fun u => u.id)[i]? =
      some ((participants.get ⟨i, hip⟩).id) := by
    rw [List.getElem?_eq_getElem (by simpa using hip)]
    simp
  rw [hL, hR] at hno
  apply hno
  rw [List.getD_eq_getElem (derangeResult participants) default hiD] at hcontra
  simp only [List.get_eq_getElem] at hcontra ⊢
  rw [hcontra]

theorem findEventById_map_update (st : Store) (eid : Nat) (ev newEv : EventDoc)
    (hev : findEventById st eid = some ev) (hid : newEv.id = ev.id) :
    (st.events.map fun e0 => if e0.id == ev.id then newEv else e0).find?
      (fun e => e.id == eid) = some newEv := by
  have hif : ev.id = eid := by simpa using List.find?_some hev
  rw [List.find?_map]
  have hp : ((fun e : EventDoc => e.id == eid) ∘ fun e0 => if e0.id == ev.id then newEv else e0)
      = fun e0 => e0.id == eid := by
    funext e0
    by_cases h : e0.id = ev.id
    · simp [Function.comp, h, hid, hif]
    · simp [Function.comp, h]
  rw [hp]
  rw [findEventById] at hev
  rw [hev]
  simp [hid, hif]

theorem findEventById_after_success (st st1 : Store) (eid : Nat) (ev : EventDoc)
    (hev : findEventById st eid = some ev)
    (hevents : st1.events = st.events.map
      fun e0 => if e0.id == ev.id then { ev with status := "assigned" } else e0) :
    findEventById st1 eid = some { ev with status := "assigned" } := by
  rw [findEventById, hevents]
  exact findEventById_map_update st eid ev _ hev rfl

theorem participantsOf_eq_of_users (st st1 : Store) (eid : Nat)
    (h : st1.users = st.users) : participantsOf st1 eid = participantsOf st eid := by
  rw [participantsOf, participantsOf, h]

/-! ## Claim theorems: completeness and numbering -/

/-- C1: for every event with `N ≥ 2` participants with pairwise distinct
identifiers, a successful run of `assignSecretSanta` leaves exactly `N`
assignment rows for the event; the multiset of santa references equals the
participant identifier set, the multiset of receiver references equals the
participant identifier set, and no row pairs a santa with itself. -/
theorem assign_completeness_no_fixed_point (rnd : Nat → Nat) (st : Store) (eid k : Nat)
    (ev : EventDoc) (hev : findEventById st eid = some ev)
    (h2 : 2 ≤ (participantsOf st eid).length)
    (hnd : ((participantsOf st eid).map fun u => u.id).Nodup) :
    ∃ st1, assignSecretSanta rnd st eid k false = (st1, none) ∧
      (assignmentsFor st1 eid).length = (participantsOf st eid).length ∧
      ((assignmentsFor st1 eid).map fun r => r.santaUserId).Perm
        ((participantsOf st eid).map fun u => u.id) ∧
      ((assignmentsFor st1 eid).map fun r => r.receiverUserId).Perm
        ((participantsOf st eid).map fun u => u.id) ∧
      ∀ r ∈ assignmentsFor st1 eid, r.santaUserId ≠ r.receiverUserId := by
  obtain ⟨st1, nums, hrun, hperm, hassign, husers, hevents, hnext⟩ :=
    assign_success_spec rnd st eid k ev hev h2
  have hfor : assignmentsFor st1 eid =
      builtRows eid st.nextId (participantsOf st eid)
        (derangeResult (participantsOf st eid)) nums :=
    assignmentsFor_of_eq st1 eid st.assignments _ hassign (builtRows_eventId _ _ _ _ _)
  refine ⟨st1, hrun, ?_, ?_, ?_, ?_⟩
  · rw [hfor, builtRows_length]
  · rw [hfor, builtRows_map_santa]
  · rw [hfor, builtRows_map_receiver _ _ _ _ _ (derangeResult_length _)]
    exact (derangeResult_perm _).map _
  · rw [hfor]
    exact builtRows_no_fix eid st.nextId (participantsOf st eid) nums h2 hnd

/-- C5: after a successful run, the receiver-numbers stored for the event are
a permutation of `1, …, N` — no duplicates, no gaps. -/
theorem assign_receiver_numbers_bijection (rnd : Nat → Nat) (st : Store) (eid k : Nat)
    (ev : EventDoc) (hev : findEventById st eid = some ev)
    (h2 : 2 ≤ (participantsOf st eid).length) :
    ∃ st1, assignSecretSanta rnd st eid k false = (st1, none) ∧
      ((assignmentsFor st1 eid).map fun r => r.receiverNumber).Perm
        ((List.range (participantsOf st eid).length).map fun i => i + 1) := by
  obtain ⟨st1, nums, hrun, hperm, hassign, husers, hevents, hnext⟩ :=
    assign_success_spec rnd st eid k ev hev h2
  have hfor : assignmentsFor st1 eid =
      builtRows eid st.nextId (participantsOf st eid)
        (derangeResult (participantsOf st eid)) nums :=
    assignmentsFor_of_eq st1 eid st.assignments _ hassign (builtRows_eventId _ _ _ _ _)
  have hlen : nums.length = (participantsOf st eid).length := by
    have := hperm.length_eq
    simpa using this
  refine ⟨st1, hrun, ?_⟩
  rw [hfor, builtRows_map_number _ _ _ _ _ hlen]
  exact hperm

/-! ## Sample stores for witnesses -/

/-- Empty wishlist used by the sample stores. -/
def emptyWl : Wishlist := { wishText := "", link := "" }

/-- A sample event in the open state. -/
def sampleEvent : EventDoc := { id := 1, name := "E", status := "open" }

/-- Three distinct participants of event 1. -/
def sampleUsers3 : List UserDoc :=
  [{ id := 10, name := "Alice", email := "a@x.io", wishlist := emptyWl, eventId := some 1 },
   { id := 11, name := "Bob", email := "b@x.io", wishlist := emptyWl, eventId := some 1 },
   { id := 12, name := "Carol", email := "c@x.io", wishlist := emptyWl, eventId := some 1 }]

/-- A sample store with one event and three participants. -/
def sampleStore : Store :=
  { events := [sampleEvent], users := sampleUsers3, assignments := [], nextId := 100 }

/-- Witness for C1 at the three-participant sample store. -/
theorem assign_completeness_no_fixed_point_witness :
    ∃ st1, assignSecretSanta (fun _ => 0) sampleStore 1 0 false = (st1, none) ∧
      (assignmentsFor st1 1).length = (participantsOf sampleStore 1).length ∧
      ((assignmentsFor st1 1).map fun r => r.santaUserId).Perm
        ((participantsOf sampleStore 1).map fun u => u.id) ∧
      ((assignmentsFor st1 1).map fun r => r.receiverUserId).Perm
        ((participantsOf sampleStore 1).map fun u => u.id) ∧
      ∀ r ∈ assignmentsFor st1 1, r.santaUserId ≠ r.receiverUserId :=
  assign_completeness_no_fixed_point (fun _ => 0) sampleStore 1 0 sampleEvent
    (by decide) (by decide) (by decide)

/-- Witness for C5 at the three-participant sample store. -/
theorem assign_receiver_numbers_bijection_witness :
    ∃ st1, assignSecretSanta (fun _ => 0) sampleStore 1 0 false = (st1, none) ∧
      ((assignmentsFor st1 1).map fun r => r.receiverNumber).Perm
        ((List.range (participantsOf sampleStore 1).length).map fun i => i + 1) :=
  assign_receiver_numbers_bijection (fun _ => 0) sampleStore 1 0 sampleEvent
    (by decide) (by decide)

/-! ## Claim theorems: error handling and atomicity -/

/-- C4: whenever any step of the assignment operation fails — event missing,
fewer than two participants, or an injected store failure at the insert step —
the call returns the pre-call store unchanged: in particular the event's
status and every previously existing assignment row of the event are exactly
as before the call. -/
theorem assign_failure_is_atomic (rnd : Nat → Nat) (st : Store) (eid k : Nat)
    (fault : Bool) (msg : String)
    (herr : (assignSecretSanta rnd st eid k fault).2 = some msg) :
    (assignSecretSanta rnd st eid k fault).1 = st ∧
    findEventById (assignSecretSanta rnd st eid k fault).1 eid = findEventById st eid ∧
    assignmentsFor (assignSecretSanta rnd st eid k fault).1 eid = assignmentsFor st eid := by
  unfold assignSecretSanta at herr ⊢
  cases htx : assignSecretSantaTx rnd st eid k fault with
  | ok st2 =>
    rw [htx] at herr
    exact Option.noConfusion herr
  | error e => exact ⟨rfl, rfl, rfl⟩

/-- A pre-existing assignment row of event 1 used in the witness stores. -/
def oldRow : AssignmentDoc :=
  { id := 50, eventId := 1, santaUserId := 10, receiverUserId := 11, receiverNumber := 1 }

/-- A sample store with two participants of event 1 and one prior assignment
row. -/
def sampleStore2 : Store :=
  { events := [sampleEvent],
    users := [{ id := 10, name := "Alice", email := "a@x.io", wishlist := emptyWl,
                eventId := some 1 },
              { id := 11, name := "Bob", email := "b@x.io", wishlist := emptyWl,
                eventId := some 1 }],
    assignments := [oldRow], nextId := 100 }

/-- Witness for C4: an injected insert failure aborts the run and keeps the
prior store, including the old assignment row and the event status. -/
theorem assign_failure_is_atomic_witness :
    (assignSecretSanta (fun _ => 0) sampleStore2 1 0 true).2 = some "insert failed" ∧
    ((assignSecretSanta (fun _ => 0) sampleStore2 1 0 true).1 = sampleStore2 ∧
     findEventById (assignSecretSanta (fun _ => 0) sampleStore2 1 0 true).1 1 =
       findEventById sampleStore2 1 ∧
     assignmentsFor (assignSecretSanta (fun _ => 0) sampleStore2 1 0 true).1 1 =
       assignmentsFor sampleStore2 1) :=
  ⟨by decide,
   assign_failure_is_atomic (fun _ => 0) sampleStore2 1 0 true "insert failed" (by decide)⟩

/-- C9: an existing event with fewer than two linked participants makes the
assignment operation fail with the insufficient-participants error and leaves
the whole store — in particular any prior assignment rows — untouched. -/
theorem assign_insufficient_participants (rnd : Nat → Nat) (st : Store) (eid k : Nat)
    (fault : Bool) (ev : EventDoc) (hev : findEventById st eid = some ev)
    (hlt : (participantsOf st eid).length < 2) :
    assignSecretSanta rnd st eid k fault =
      (st, some "Need at least 2 participants for Secret Santa") := by
  simp [assignSecretSanta, assignSecretSantaTx, hev, if_pos hlt]

/-- A sample store with a single participant of event 1 and one prior
assignment row. -/
def sampleStore1 : Store :=
  { events := [sampleEvent],
    users := [{ id := 10, name := "Lonely", email := "l@x.io", wishlist := emptyWl,
                eventId := some 1 }],
    assignments := [oldRow], nextId := 100 }

/-- Witness for C9 at the one-participant store. -/
theorem assign_insufficient_participants_witness :
    assignSecretSanta (fun _ => 0) sampleStore1 1 0 false =
      (sampleStore1, some "Need at least 2 participants for Secret Santa") :=
  assign_insufficient_participants (fun _ => 0) sampleStore1 1 0 false sampleEvent
    (by decide) (by decide)

/-! ## Claim theorems: the participant-scoped read -/

/-- C7: the participant-scoped read returns only the masked receiver number
and the receiver's wishlist.  Its result is identical on any two stores that
differ only in users' names and emails (`redactUsers` rewrites both fields
arbitrarily), so the result neither contains nor depends on the receiver's
name, email, or identifier. -/
theorem getUserAssignment_congr (stA stB : Store) (eid uid : Nat)
    (hassign : stB.assignments = stA.assignments)
    (hfind : ∀ rid : Nat, ((stB.users.find? fun u => u.id == rid).map fun u => u.wishlist)
      = (stA.users.find? fun u => u.id == rid).map fun u => u.wishlist) :
    getUserAssignment stB eid uid = getUserAssignment stA eid uid := by
  unfold getUserAssignment
  rw [hassign]
  cases stA.assignments.find? fun a => a.eventId == eid && a.santaUserId == uid with
  | none => rfl
  | some a =>
    simp only []
    rw [hfind]

theorem getUserAssignment_identity_independent (st : Store) (eid uid : Nat)
    (f g : UserDoc → String) :
    getUserAssignment (redactUsers st f g) eid uid = getUserAssignment st eid uid := by
  apply getUserAssignment_congr
  · rfl
  · intro rid
    show (((st.users.map fun u => { u with name := f u, email := g u }).find?
        fun u => u.id == rid).map fun u => u.wishlist) = _
    rw [List.find?_map]
    have hp : ((fun u : UserDoc => u.id == rid) ∘
        fun u => { u with name := f u, email := g u }) =
        fun u : UserDoc => u.id == rid := by
      funext u
      rfl
    rw [hp, Option.map_map]
    rfl

/-! ## Claim theorems: the two-participant case -/

/-- C8: with exactly two distinct participants the generator deterministically
returns the swap, whatever the random draws; consequently a successful run
pairs each of the two participants with the other. -/
theorem two_participants_swap (rnd : Nat → Nat) (st : Store) (eid k : Nat)
    (ev : EventDoc) (ua ub : UserDoc) (hev : findEventById st eid = some ev)
    (hp : participantsOf st eid = [ua, ub]) (hne : ua ≠ ub) :
    generateDerangement rnd [ua, ub] 1000 k = Except.ok ([ub, ua], k) ∧
    ∃ st1, assignSecretSanta rnd st eid k false = (st1, none) ∧
      (assignmentsFor st1 eid).map (fun r => (r.santaUserId, r.receiverUserId)) =
        [(ua.id, ub.id), (ub.id, ua.id)] := by
  constructor
  · rw [generateDerangement_two rnd [ua, ub] k 1000 (by simp)]
    rfl
  · have h2 : 2 ≤ (participantsOf st eid).length := by
      rw [hp]
      simp
    obtain ⟨st1, nums, hrun, hperm, hassign, husers, hevents, hnext⟩ :=
      assign_success_spec rnd st eid k ev hev h2
    have hfor : assignmentsFor st1 eid =
        builtRows eid st.nextId (participantsOf st eid)
          (derangeResult (participantsOf st eid)) nums :=
      assignmentsFor_of_eq st1 eid st.assignments _ hassign (builtRows_eventId _ _ _ _ _)
    refine ⟨st1, hrun, ?_⟩
    rw [hfor, hp, derangeResult_two]
    have henum : ([ua, ub] : List UserDoc).enum = [(0, ua), (1, ub)] := rfl
    simp [builtRows, henum]

/-- The first sample participant of event 1 in `sampleStore2`. -/
def aliceDoc : UserDoc :=
  { id := 10, name := "Alice", email := "a@x.io", wishlist := emptyWl, eventId := some 1 }

/-- The second sample participant of event 1 in `sampleStore2`. -/
def bobDoc : UserDoc :=
  { id := 11, name := "Bob", email := "b@x.io", wishlist := emptyWl, eventId := some 1 }

/-- Witness for C8 at the two-participant store. -/
theorem two_participants_swap_witness :
    generateDerangement (fun _ => 0) [aliceDoc, bobDoc] 1000 0 =
      Except.ok ([bobDoc, aliceDoc], 0) ∧
    ∃ st1, assignSecretSanta (fun _ => 0) sampleStore2 1 0 false = (st1, none) ∧
      (assignmentsFor st1 1).map (fun r => (r.santaUserId, r.receiverUserId)) =
        [(aliceDoc.id, bobDoc.id), (bobDoc.id, aliceDoc.id)] :=
  two_participants_swap (fun _ => 0) sampleStore2 1 0 sampleEvent aliceDoc bobDoc
    (by decide) (by decide) (by decide)

/-! ## Claim theorems: the generator ignores its random source -/

/-- C3: on any input of at least three distinct elements the generator returns
the rotation of the input by one position (last element moved to the front)
for every random stream and cursor: the test of line 52 compares indices
computed from the original array with themselves, so no sampled shuffle is
ever accepted and the output is independent of the random source. -/
theorem generator_independent_of_randomness {α : Type} [DecidableEq α] [Inhabited α]
    (rnd1 rnd2 : Nat → Nat) (arr : List α) (k1 k2 : Nat)
    (h3 : 3 ≤ arr.length) (hnd : arr.Nodup) :
    generateDerangement rnd1 arr 1000 k1 =
      Except.ok (rotateLastToFront arr, k1 + 1000 * (arr.length - 1)) ∧
    generateDerangement rnd2 arr 1000 k2 =
      Except.ok (rotateLastToFront arr, k2 + 1000 * (arr.length - 1)) :=
  ⟨generateDerangement_three rnd1 arr k1 1000 h3,
   generateDerangement_three rnd2 arr k2 1000 h3⟩

/-- Witness for C3: two unrelated random streams, same output. -/
theorem generator_independent_of_randomness_witness :
    generateDerangement (fun _ => 0) ["a", "b", "c"] 1000 0 =
      Except.ok (rotateLastToFront ["a", "b", "c"], 0 + 1000 * (3 - 1)) ∧
    generateDerangement (fun n => n * n + 7) ["a", "b", "c"] 1000 5 =
      Except.ok (rotateLastToFront ["a", "b", "c"], 5 + 1000 * (3 - 1)) := by
  have h := generator_independent_of_randomness (fun _ => 0) (fun n => n * n + 7)
    ["a", "b", "c"] 0 5 (by decide) (by decide)
  simpa using h

/-- C2 is refuted by the code: with the constant-zero stream the very first
drawn shuffle of `["a", "b", "c"]` is `["b", "c", "a"]`, a derangement of the
original order, yet `generateDerangement` does not return it — line 52 builds
`shuffledIndices` from the original `array`, so every draw is rejected, all
1000 attempts are consumed (2 draws each), and the fallback rotation
`["c", "a", "b"]` is returned. -/
theorem generator_discards_first_derangement :
    (shuffleArray (fun _ => 0) ["a", "b", "c"] 0).1 = ["b", "c", "a"] ∧
    (∀ i, i < 3 → (["a", "b", "c"] : List String)[i]? ≠ (["b", "c", "a"] : List String)[i]?) ∧
    generateDerangement (fun _ => 0) ["a", "b", "c"] 1000 0 =
      Except.ok (["c", "a", "b"], 2000) := by
  refine ⟨by decide, by decide, ?_⟩
  rw [generateDerangement_three (fun _ => 0) ["a", "b", "c"] 0 1000 (by decide)]
  rfl

/-! ## Claim theorems: the fallback is total -/

/-- C10: the rotation moving the last element to the front is a derangement of
any list of at least two distinct elements, and consequently the generator
returns a result for every such list — its error branch is reachable only for
fewer than two elements. -/
theorem rotation_derangement_generator_total {α : Type} [DecidableEq α] [Inhabited α]
    (rnd : Nat → Nat) (l : List α) (k : Nat) (h2 : 2 ≤ l.length) (hnd : l.Nodup) :
    (∀ i, i < l.length → (rotateLastToFront l)[i]? ≠ l[i]?) ∧
    ∃ r k1, generateDerangement rnd l 1000 k = Except.ok (r, k1) := by
  refine ⟨rotateLastToFront_no_fix l h2 hnd, ?_⟩
  obtain ⟨k1, h⟩ := generateDerangement_ok rnd l k h2
  exact ⟨derangeResult l, k1, h⟩

/-- Witness for C10 on a two-element list. -/
theorem rotation_derangement_generator_total_witness :
    (∀ i, i < (["x", "y"] : List String).length →
      (rotateLastToFront ["x", "y"])[i]? ≠ (["x", "y"] : List String)[i]?) ∧
    ∃ r k1, generateDerangement (fun _ => 0) ["x", "y"] 1000 3 = Except.ok (r, k1) :=
  rotation_derangement_generator_total (fun _ => 0) ["x", "y"] 3 (by decide) (by decide)

/-! ## Claim theorems: re-running replaces the rows -/

/-- C6: with the same participant set, running the assignment twice succeeds
both times, the second run's rows again satisfy completeness, no-fixed-point
and numbering, and the second run's row set fully replaces the first: no row
inserted by the first run remains anywhere in the store. -/
theorem rerun_fully_replaces_rows (rnd1 rnd2 : Nat → Nat) (st : Store) (eid k1 k2 : Nat)
    (ev : EventDoc) (hev : findEventById st eid = some ev)
    (h2 : 2 ≤ (participantsOf st eid).length)
    (hnd : ((participantsOf st eid).map fun u => u.id).Nodup) :
    ∃ st1 st2, assignSecretSanta rnd1 st eid k1 false = (st1, none) ∧
      assignSecretSanta rnd2 st1 eid k2 false = (st2, none) ∧
      participantsOf st1 eid = participantsOf st eid ∧
      (assignmentsFor st2 eid).length = (participantsOf st eid).length ∧
      ((assignmentsFor st2 eid).map fun r => r.santaUserId).Perm
        ((participantsOf st eid).map fun u => u.id) ∧
      ((assignmentsFor st2 eid).map fun r => r.receiverUserId).Perm
        ((participantsOf st eid).map fun u => u.id) ∧
      (∀ r ∈ assignmentsFor st2 eid, r.santaUserId ≠ r.receiverUserId) ∧
      ((assignmentsFor st2 eid).map fun r => r.receiverNumber).Perm
        ((List.range (participantsOf st eid).length).map fun i => i + 1) ∧
      ∀ r ∈ assignmentsFor st1 eid, r ∉ st2.assignments := by
  obtain ⟨st1, nums1, hrun1, hperm1, hassign1, husers1, hevents1, hnext1⟩ :=
    assign_success_spec rnd1 st eid k1 ev hev h2
  have hev1 : findEventById st1 eid = some { ev with status := "assigned" } :=
    findEventById_after_success st st1 eid ev hev hevents1
  have hparts1 : participantsOf st1 eid = participantsOf st eid :=
    participantsOf_eq_of_users st st1 eid husers1
  have h2b : 2 ≤ (participantsOf st1 eid).length := by
    rw [hparts1]
    exact h2
  obtain ⟨st2, nums2, hrun2, hperm2, hassign2, husers2, hevents2, hnext2⟩ :=
    assign_success_spec rnd2 st1 eid k2 { ev with status := "assigned" } hev1 h2b
  have hfor1 : assignmentsFor st1 eid =
      builtRows eid st.nextId (participantsOf st eid)
        (derangeResult (participantsOf st eid)) nums1 :=
    assignmentsFor_of_eq st1 eid st.assignments _ hassign1 (builtRows_eventId _ _ _ _ _)
  rw [hparts1] at hassign2 hperm2
  have hfor2 : assignmentsFor st2 eid =
      builtRows eid st1.nextId (participantsOf st eid)
        (derangeResult (participantsOf st eid)) nums2 :=
    assignmentsFor_of_eq st2 eid st1.assignments _ hassign2 (builtRows_eventId _ _ _ _ _)
  refine ⟨st1, st2, hrun1, hrun2, hparts1, ?_, ?_, ?_, ?_, ?_, ?_⟩
  · rw [hfor2, builtRows_length]
  · rw [hfor2, builtRows_map_santa]
  · rw [hfor2, builtRows_map_receiver _ _ _ _ _ (derangeResult_length _)]
    exact (derangeResult_perm _).map _
  · rw [hfor2]
    exact builtRows_no_fix eid st1.nextId (participantsOf st eid) nums2 h2 hnd
  · have hlen2 : nums2.length = (participantsOf st eid).length := by
      simpa using hperm2.length_eq
    rw [hfor2, builtRows_map_number _ _ _ _ _ hlen2]
    exact hperm2
  · intro r hr1 hr2
    have hbound1 := builtRows_id_bounds eid st.nextId (participantsOf st eid)
      (derangeResult (participantsOf st eid)) nums1 r (by rw [hfor1] at hr1; exact hr1)
    have hevid : r.eventId = eid := by
      have hmem := (List.mem_filter.mp (by rw [assignmentsFor] at hr1; exact hr1)).2
      simpa using hmem
    rw [hassign2] at hr2
    rcases List.mem_append.mp hr2 with hcase | hcase
    · have hne2 := (List.mem_filter.mp hcase).2
      simp [hevid] at hne2
    · have hbound2 := builtRows_id_bounds eid st1.nextId (participantsOf st eid)
        (derangeResult (participantsOf st eid)) nums2 r hcase
      rw [hnext1] at hbound2
      omega

/-- Witness for C6 at the three-participant sample store. -/
theorem rerun_fully_replaces_rows_witness :
    ∃ st1 st2, assignSecretSanta (fun _ => 0) sampleStore 1 0 false = (st1, none) ∧
      assignSecretSanta (fun _ => 1) st1 1 0 false = (st2, none) ∧
      participantsOf st1 1 = participantsOf sampleStore 1 ∧
      (assignmentsFor st2 1).length = (participantsOf sampleStore 1).length ∧
      ((assignmentsFor st2 1).map fun r => r.santaUserId).Perm
        ((participantsOf sampleStore 1).map fun u => u.id) ∧
      ((assignmentsFor st2 1).map fun r => r.receiverUserId).Perm
        ((participantsOf sampleStore 1).map fun u => u.id) ∧
      (∀ r ∈ assignmentsFor st2 1, r.santaUserId ≠ r.receiverUserId) ∧
      ((assignmentsFor st2 1).map fun r => r.receiverNumber).Perm
        ((List.range (participantsOf sampleStore 1).length).map fun i => i + 1) ∧
      ∀ r ∈ assignmentsFor st1 1, r ∉ st2.assignments :=
  rerun_fully_replaces_rows (fun _ => 0) (fun _ => 1) sampleStore 1 0 0 sampleEvent
    (by decide) (by decide) (by decide)

end SecretSanta
